import Mathlib

/-!
Shallow embedding of `jira-metrics-extract/query.py` (class `QueryManager`
and its snapshot types), together with proofs about the changelog replay,
field-value normalization, field resolution and the paginated bulk query
loop.

Modelling conventions:
* Python `None` becomes `Option.none`; attribute access that can raise
  `AttributeError` is modelled by `Option`-typed inputs.
* Timestamps are carried through the replay as their raw `created` strings:
  the source parses them with `dateutil.parser.parse` and converts to UTC,
  a value-preserving step that none of the tracked fields depend on.
* The class-level dictionary `QueryManager.fields` (shared by all
  instances) is modelled as explicit state threaded through construction.
-/

namespace JiraExtract

/-- One field-delta of a changelog history record (an element of
`change.items`): `field`, `fromString`, `toString` and the raw `to` id. -/
structure ChangeItem where
  field : String
  fromString : Option String
  toString : Option String
  «to» : Option String
deriving DecidableEq, Repr

/-- One history record of a changelog (`issue.changelog.histories[i]`):
a `created` timestamp string and an ordered list of field-deltas. -/
structure ChangeHistory where
  created : String
  items : List ChangeItem
deriving DecidableEq, Repr

/-- The changelog attached to an issue: `issue.changelog.histories`. -/
structure Changelog where
  histories : List ChangeHistory
deriving DecidableEq, Repr

/-- The slice of a JIRA issue read by `QueryManager`: `issue.key`,
`issue.fields.created`, `issue.fields.status.name`, the raw field
dictionary `issue.fields.__dict__` (used for the story-points lookup,
values may be JSON null), and the optional changelog attribute
(`none` models an issue object with no `changelog` attribute). -/
structure Issue where
  key : String
  created : String
  statusName : String
  fieldsDict : List (String × Option String)
  changelog : Option Changelog
deriving DecidableEq, Repr

/-- Class `IssueSnapshot` of the source: a snapshot of the key fields of an
issue at a point in its change history. -/
structure IssueSnapshot where
  change : Option String
  key : String
  date : String
  status : Option String
  resolution : Option String
  is_resolved : Bool
deriving DecidableEq, Repr

/-- Class `IssueSizeSnapshot` of the source: a snapshot of the size of an
issue at a point in its change history. -/
structure IssueSizeSnapshot where
  change : Option String
  key : String
  date : String
  size : Option String
deriving DecidableEq, Repr

/-- The flattened status deltas of a changelog, in changelog order:
`filter(lambda h: h.field == 'status', chain.from_iterable(c.items for c in histories))`. -/
def statusChanges (histories : List ChangeHistory) : List ChangeItem :=
  ((histories.map (·.items)).flatten).filter (fun h => h.field == "status")

/-- The flattened story-points deltas of a changelog, in changelog order:
`filter(lambda h: h.field == 'Story Points', chain.from_iterable(c.items for c in histories))`. -/
def sizeChanges (histories : List ChangeHistory) : List ChangeItem :=
  ((histories.map (·.items)).flatten).filter (fun h => h.field == "Story Points")

/-- The running state of the `iter_changes` walk: the local variables
`is_resolved`, `last_status` and `last_resolution` of the source. -/
structure ReplayState where
  is_resolved : Bool
  last_status : Option String
  last_resolution : Option String
deriving DecidableEq, Repr

/-- Body of the inner `for item in change.items` loop of `iter_changes`:
a status delta updates `last_status` and emits a snapshot; a resolution
delta updates `last_resolution` and emits a snapshot only when
`include_resolution_changes` is set; other fields are ignored. -/
def processItem (key date : String) (inc : Bool) (st : ReplayState) (item : ChangeItem) :
    ReplayState × List IssueSnapshot :=
  if item.field == "status" then
    ({ st with last_status := item.toString },
     [{ change := some item.field, key := key, date := date, status := item.toString,
        resolution := st.last_resolution, is_resolved := st.is_resolved }])
  else if item.field == "resolution" then
    ({ st with last_resolution := item.toString },
     if inc then
       [{ change := some item.field, key := key, date := date, status := st.last_status,
          resolution := item.toString, is_resolved := st.is_resolved }]
     else [])
  else (st, [])

/-- The inner `for item in change.items` loop of `iter_changes`. -/
def processItems (key date : String) (inc : Bool) :
    ReplayState → List ChangeItem → ReplayState × List IssueSnapshot
  | st, [] => (st, [])
  | st, item :: rest =>
    let p := processItem key date inc st item
    let q := processItems key date inc p.1 rest
    (q.1, p.2 ++ q.2)

/-- One iteration of the outer `for change in issue.changelog.histories`
loop of `iter_changes`: first `is_resolved` is recomputed from the last
resolution delta of the record (`resolutions[-1].to is not None`, keeping
its previous value when the record has no resolution delta), then the
record's deltas are walked in order. -/
def processHistory (key : String) (inc : Bool) (st : ReplayState) (h : ChangeHistory) :
    ReplayState × List IssueSnapshot :=
  let resolutions := h.items.filter (fun i => i.field == "resolution")
  let is_resolved := match resolutions.getLast? with
    | some r => r.«to».isSome
    | none => st.is_resolved
  processItems key h.created inc { st with is_resolved := is_resolved } h.items

/-- The outer history loop of `iter_changes`. -/
def processHistories (key : String) (inc : Bool) :
    ReplayState → List ChangeHistory → List IssueSnapshot
  | _, [] => []
  | st, h :: rest =>
    let p := processHistory key inc st h
    p.2 ++ processHistories key inc p.1 rest

/-- Method `QueryManager.iter_changes`: yields an `IssueSnapshot` for each
time the issue changed status or resolution, preceded by a creation
snapshot. An issue with no changelog attribute yields nothing
(the `AttributeError` branch). -/
def iter_changes (issue : Issue) (include_resolution_changes : Bool) : List IssueSnapshot :=
  match issue.changelog with
  | none => []
  | some cl =>
    let status_changes := statusChanges cl.histories
    let last_status : Option String := match status_changes with
      | [] => some issue.statusName
      | c :: _ => c.fromString
    { change := none, key := issue.key, date := issue.created,
      status := last_status, resolution := none, is_resolved := false }
      :: processHistories issue.key include_resolution_changes
          { is_resolved := false, last_status := last_status, last_resolution := none }
          cl.histories

/-- Lookup in the resolved-fields dictionary / the issue's raw field
dictionary; `none` models both a missing key (the `KeyError` swallowed by
the source's bare `except`) and is also produced when a present value is
JSON null. -/
def lookupKV {β : Type} (l : List (String × β)) (k : String) : Option β :=
  List.lookup k l

/-- Expression `issue.fields.__dict__[self.fields['StoryPoints']]` wrapped
in `try/except` with `current_size = None` on any failure: a missing
`StoryPoints` mapping, a missing dictionary key, and a null stored value
all produce `none`. -/
def currentSizeOf (fields : List (String × String)) (issue : Issue) : Option String :=
  match lookupKV fields "StoryPoints" with
  | none => none
  | some fid =>
    match lookupKV issue.fieldsDict fid with
    | none => none
    | some v => v

/-- The inner loop of `iter_size_changes` for one history record: one
snapshot per `'Story Points'` delta, carrying the delta's `toString`. -/
def sizeSnapshotsOfHistory (key : String) (h : ChangeHistory) : List IssueSizeSnapshot :=
  (h.items.filter (fun i => i.field == "Story Points")).map
    (fun item => { change := some item.field, key := key, date := h.created,
                   size := item.toString })

/-- Method `QueryManager.iter_size_changes`: yields an `IssueSizeSnapshot`
for each time the issue size changed, preceded by a creation snapshot whose
size is the first size delta's `fromString` when a size delta exists, and
the issue's current story-points value otherwise. `fields` is the resolved
field mapping `self.fields`. -/
def iter_size_changes (fields : List (String × String)) (issue : Issue) :
    List IssueSizeSnapshot :=
  match issue.changelog with
  | none => []
  | some cl =>
    let size_changes := sizeChanges cl.histories
    let current_size := currentSizeOf fields issue
    let size : Option String := match size_changes with
      | [] => current_size
      | c :: _ => c.fromString
    { change := none, key := issue.key, date := issue.created, size := size }
      :: ((cl.histories.map (sizeSnapshotsOfHistory issue.key)).flatten)

/-- One entry of the JIRA field catalog returned by `jira.fields()`:
a display name and a field id. -/
structure JField where
  name : String
  id : String
deriving DecidableEq, Repr

/-- Python `str.lower()` as applied to the ASCII field labels: lower-case
each character (structural counterpart of `String.toLower`, which maps
`Char.toLower` over the string). -/
def strLower (s : String) : String :=
  String.mk (s.data.map Char.toLower)

/-- Expression `next((f['id'] for f in fields if f['name'].lower() == field.lower()))`:
the id of the first catalog entry whose name matches the label
case-insensitively, `none` for the `StopIteration` case. -/
def resolveOne (catalog : List JField) (field : String) : Option String :=
  (catalog.find? (fun f => strLower f.name == strLower field)).map (·.id)

/-- The error message raised when a configured label matches no catalog
entry. -/
def fieldError (field : String) : String :=
  "JIRA field with name `" ++ field ++ "` does not exist (did you try to use the field id instead?)"

/-- Python dictionary item assignment `d[k] = v`: replaces the value of an
existing key in place, otherwise appends the new pair. -/
def dictInsert (d : List (String × String)) (k v : String) : List (String × String) :=
  if d.any (fun p => p.1 == k) then
    d.map (fun p => if p.1 == k then (k, v) else p)
  else d ++ [(k, v)]

/-- Method `QueryManager.resolve_fields`, with the class-level dictionary
`self.fields` threaded explicitly: walks the configured
logical-name/label pairs in order, writing each resolved id into the
dictionary, and stops at the first label with no catalog match, returning
the dictionary as mutated so far together with the raised error message. -/
def resolve_fields (catalog : List JField) :
    List (String × String) → List (String × String) →
    List (String × String) × Option String
  | [], fields => (fields, none)
  | (name, field) :: rest, fields =>
    match resolveOne catalog field with
    | some fid => resolve_fields catalog rest (dictInsert fields name fid)
    | none => (fields, some (fieldError field))

/-- The per-instance state of a `QueryManager` that the claims observe:
its configured logical-name/label pairs. -/
structure QueryManager where
  settingsFields : List (String × String)
deriving DecidableEq, Repr

/-- Constructor `QueryManager.__init__` restricted to its observable
effect on the class-level dictionary: it runs `resolve_fields` against the
shared dictionary and either returns the instance or raises, in both cases
leaving the dictionary as `resolve_fields` mutated it. -/
def QueryManager.init (classFields : List (String × String)) (catalog : List JField)
    (settingsFields : List (String × String)) :
    List (String × String) × Except String QueryManager :=
  let r := resolve_fields catalog settingsFields classFields
  match r.2 with
  | none => (r.1, Except.ok { settingsFields := settingsFields })
  | some msg => (r.1, Except.error msg)

/-- Reading `self.fields` through any instance: the attribute lookup finds
the class-level dictionary (instances never shadow it, since the source
only ever item-assigns into it), so every instance observes the same
shared state. -/
def QueryManager.fieldsView (_qm : QueryManager) (classFields : List (String × String)) :
    List (String × String) :=
  classFields

/-- The pagination loop of `QueryManager.find_issues`, over an abstract
search call `search startAt` (the `jira.search_issues` call with the query
string, changelog toggle and page size fixed); `Except.error` models a
raised `JIRAError`. The source's `while True` loop is given explicit fuel;
every run the claims quantify over terminates within its fuel. -/
def findIssuesLoop {α : Type} (search : Nat → Except String (List α)) (maxResults : Nat) :
    Nat → List α → Nat → List α
  | _, issues, 0 => issues
  | fromRow, issues, fuel + 1 =>
    match search fromRow with
    | Except.error _ => []
    | Except.ok page =>
      let fromRow' := fromRow + maxResults
      let issues' := issues ++ page
      if page.length == 0 then issues'
      else findIssuesLoop search maxResults fromRow' issues' fuel

/-- Method `QueryManager.find_issues`, restricted to its pagination loop:
starts at offset 0 with an empty accumulator. On a `JIRAError` the source
prints the query and executes `return []`. -/
def find_issues {α : Type} (search : Nat → Except String (List α)) (maxResults fuel : Nat) :
    List α :=
  findIssuesLoop search maxResults 0 [] fuel

/-- Whether the pagination run starting at the given offset raises a
`JIRAError` on some page before running out of fuel (pages before the
failing one being non-empty successes). -/
def runHitsError {α : Type} (search : Nat → Except String (List α)) (maxResults : Nat) :
    Nat → Nat → Bool
  | _, 0 => false
  | fromRow, fuel + 1 =>
    match search fromRow with
    | Except.error _ => true
    | Except.ok page =>
      page.length != 0 && runHitsError search maxResults (fromRow + maxResults) fuel

/-- An element of a multi-valued field value: either an object carrying a
`name` attribute or a plain string, matching `getattr(v, 'name', v)`. -/
inductive Elem where
  | named (name : String)
  | plain (s : String)
deriving DecidableEq, Repr

/-- Expression `getattr(v, 'name', v)` followed by `str(x)` (the elements
in question are strings either way). -/
def elemDisplay : Elem → String
  | Elem.named n => n
  | Elem.plain s => s

/-- The maximal leading run of decimal digits of a character list, with
the remainder. -/
def takeDigitRun : List Char → List Char × List Char
  | [] => ([], [])
  | c :: rest =>
    if c.isDigit then
      let p := takeDigitRun rest
      (c :: p.1, p.2)
    else ([], c :: rest)

/-- Exactly `n` leading decimal digits, with the remainder; `none` when
fewer are available. -/
def takeExactDigits : Nat → List Char → Option (List Char × List Char)
  | 0, cs => some ([], cs)
  | _ + 1, [] => none
  | n + 1, c :: cs =>
    if c.isDigit then (takeExactDigits n cs).map (fun p => (c :: p.1, p.2)) else none

/-- An optional single character drawn from a set (`[- ]?` style): consumed
when present, skipped otherwise. -/
def expectOpt (cset : List Char) : List Char → List Char
  | [] => []
  | c :: rest => if cset.contains c then rest else c :: rest

/-- A mandatory single character drawn from a set (`[T ]` style). -/
def expectOne (cset : List Char) : List Char → Option (Char × List Char)
  | [] => none
  | c :: rest => if cset.contains c then some (c, rest) else none

/-- The capture groups of the source's date regex
`^\d4[- ]?\d\d[- ]?\d\d[T ]\d\d:\d\d:\d\d[.+]\d2,6[+-:]\d2,6$`:
the six date/time digit groups, the fractional-seconds separator and
digits, and the UTC-offset separator and digits. -/
structure DateParts where
  y : List Char
  mo : List Char
  d : List Char
  h : List Char
  mi : List Char
  s : List Char
  fracSep : Char
  frac : List Char
  offSep : Char
  off : List Char
deriving DecidableEq, Repr

/-- Matcher for the source's date regex, returning its capture groups.
Every character class of the regex is followed by a character that cannot
extend it, so the greedy left-to-right scan decides the same language as
the regex with backtracking. -/
def matchDateChars (cs : List Char) : Option DateParts := do
  let (y, r) ← takeExactDigits 4 cs
  let r := expectOpt ['-', ' '] r
  let (mo, r) ← takeExactDigits 2 r
  let r := expectOpt ['-', ' '] r
  let (d, r) ← takeExactDigits 2 r
  let (_, r) ← expectOne ['T', ' '] r
  let (h, r) ← takeExactDigits 2 r
  let (_, r) ← expectOne [':'] r
  let (mi, r) ← takeExactDigits 2 r
  let (_, r) ← expectOne [':'] r
  let (s, r) ← takeExactDigits 2 r
  let (fsep, r) ← expectOne ['.', '+'] r
  let fr := takeDigitRun r
  if fr.1.length < 2 || 6 < fr.1.length then none else do
  let (osep, r) ← expectOne ['+', '-', ':'] fr.2
  let off := takeDigitRun r
  if off.1.length < 2 || 6 < off.1.length then none else
  if off.2.isEmpty then
    some { y := y, mo := mo, d := d, h := h, mi := mi, s := s,
           fracSep := fsep, frac := fr.1, offSep := osep, off := off.1 }
  else none

/-- Test `regex.match(value)` of the source against the date regex. -/
def matchesDateRegex (s : String) : Bool :=
  (matchDateChars s.data).isSome

/-- The natural number denoted by a list of decimal digit characters. -/
def digitsToNat (cs : List Char) : Nat :=
  cs.foldl (fun n c => n * 10 + (c.toNat - 48)) 0

/-- Microseconds denoted by a fractional-seconds digit group (`.123` is
123000 microseconds). -/
def fracToMicro (cs : List Char) : Nat :=
  digitsToNat cs * 10 ^ (6 - cs.length)

/-- A timezone-naive date-time value, as left by `value.replace(tzinfo=None)`. -/
structure NaiveDateTime where
  year : Nat
  month : Nat
  day : Nat
  hour : Nat
  minute : Nat
  second : Nat
  microsecond : Nat
deriving DecidableEq, Repr

/-- The naive calendar fields literally denoted by the capture groups. -/
def dtOfParts (p : DateParts) : NaiveDateTime :=
  { year := digitsToNat p.y, month := digitsToNat p.mo, day := digitsToNat p.d,
    hour := digitsToNat p.h, minute := digitsToNat p.mi, second := digitsToNat p.s,
    microsecond := fracToMicro p.frac }

/-- Model of the third-party `dateutil.parser.parse`, restricted to the
strings accepted by the source's date regex: an aware date-time whose
calendar fields are the literal digit groups of the string and whose
timezone is the (uninterpreted) offset token. The interpretation of the
offset token never matters downstream, because the source immediately
discards it with `value.replace(tzinfo=None)`. -/
def dateutilParse (s : String) : Option (NaiveDateTime × Char × List Char) :=
  (matchDateChars s.data).map (fun p => (dtOfParts p, p.offSep, p.off))

/-- A normalized field value as returned by `resolve_field_value`. -/
inductive ResolvedValue where
  | null
  | str (s : String)
  | num (n : Int)
  | bool (b : Bool)
  | dt (d : NaiveDateTime)
deriving DecidableEq, Repr

/-- The textual-scalar tail of `resolve_field_value`: a string matching
the date regex is parsed with `dateutil.parser.parse` and stripped of its
timezone (`value.replace(tzinfo=None)`); any other string passes through. -/
def scalarStringValue (s : String) : ResolvedValue :=
  if matchesDateRegex s then
    match dateutilParse s with
    | some (ndt, _, _) => ResolvedValue.dt ndt
    | none => ResolvedValue.str s
  else ResolvedValue.str s

/-- A raw field value attached to an issue (`getattr(issue.fields, field_name)`):
JSON null, a string, a number, a boolean, a multi-valued collection, or a
custom-field option object carrying a `value` attribute and possibly a
`child.value`. -/
inductive FieldValue where
  | vnone
  | vstr (s : String)
  | vnum (n : Int)
  | vbool (b : Bool)
  | vlist (xs : List Elem)
  | vopt (value : String) (child : Option String)
deriving DecidableEq, Repr

/-- Method `QueryManager.resolve_field_value`, over the configured
allow-lists `known_values`, the logical field name, and the raw field
value (`none` models a missing attribute, the `AttributeError` branch). -/
def resolve_field_value (known_values : List (String × List String)) (name : String)
    (fv : Option FieldValue) : ResolvedValue :=
  match fv with
  | none => ResolvedValue.null
  | some FieldValue.vnone => ResolvedValue.null
  | some (FieldValue.vstr s) => scalarStringValue s
  | some (FieldValue.vnum n) => ResolvedValue.num n
  | some (FieldValue.vbool b) => ResolvedValue.bool b
  | some (FieldValue.vopt v child) =>
    -- `value = getattr(field_value, 'value', field_value)`; `if child:` is
    -- Python truthiness, so a missing child and an empty child both skip
    -- the `value + "|" + child` concatenation.
    let value := match child with
      | some c => if c = "" then v else v ++ "|" ++ c
      | none => v
    scalarStringValue value
  | some (FieldValue.vlist xs) =>
    if xs.length = 0 then ResolvedValue.null
    else
      let values := xs.map elemDisplay
      match lookupKV known_values name with
      | none => ResolvedValue.str (String.intercalate "|" values)
      | some allow =>
        -- `next(itertools.ifilter(lambda v: v in values, known_values[name]))`
        match allow.find? (fun v => values.contains v) with
        | some v => ResolvedValue.str v
        | none => ResolvedValue.null

/-- Whether a list of booleans is monotonically non-decreasing from a
given previous value. -/
def monoFrom (c : Bool) : List Bool → Bool
  | [] => true
  | b :: rest => (!c || b) && monoFrom b rest

/-- Whether a list of booleans is monotonically non-decreasing: once a
`true` appears, no later `false` follows. -/
def resolvedMonotone : List Bool → Bool
  | [] => true
  | a :: rest => monoFrom a rest

/-- The dictionary produced by resolving a list of logical-name/label
pairs in order against a catalog, starting from a given dictionary
(entries whose label has no match are skipped). -/
def resolvedUpTo (catalog : List JField) (pre : List (String × String))
    (fields0 : List (String × String)) : List (String × String) :=
  pre.foldl (fun d p =>
    match resolveOne catalog p.2 with
    | some fid => dictInsert d p.1 fid
    | none => d) fields0

/-- An issue whose changelog sets the resolution at `T1` and clears it at
`T2` (`to` null), the input refuting monotonicity of `is_resolved`. -/
def issueResCleared : Issue :=
  { key := "K-1", created := "2020-01-01T00:00:00.000+0000", statusName := "Open",
    fieldsDict := [],
    changelog := some { histories := [
      { created := "2020-01-02T00:00:00.000+0000", items := [
        { field := "resolution", fromString := none, toString := some "Fixed",
          «to» := some "1" }] },
      { created := "2020-01-03T00:00:00.000+0000", items := [
        { field := "resolution", fromString := some "Fixed", toString := none,
          «to» := none }] }] } }

/-- An issue whose changelog only ever sets resolutions to non-null
values (one record resolving it, one later status change). -/
def issueResKept : Issue :=
  { key := "K-2", created := "2020-01-01T00:00:00.000+0000", statusName := "Done",
    fieldsDict := [],
    changelog := some { histories := [
      { created := "2020-01-02T00:00:00.000+0000", items := [
        { field := "status", fromString := some "Open", toString := some "In Progress",
          «to» := some "3" }] },
      { created := "2020-01-03T00:00:00.000+0000", items := [
        { field := "resolution", fromString := none, toString := some "Fixed",
          «to» := some "1" },
        { field := "status", fromString := some "In Progress", toString := some "Done",
          «to» := some "5" }] }] } }

/-- The issue of the C3 scenario with the record's deltas in
status-before-resolution order. -/
def issueStatusFirst : Issue :=
  { key := "K-3", created := "2020-01-01T00:00:00.000+0000", statusName := "In Progress",
    fieldsDict := [],
    changelog := some { histories := [
      { created := "2020-01-05T00:00:00.000+0000", items := [
        { field := "status", fromString := some "Open", toString := some "In Progress",
          «to» := some "3" },
        { field := "resolution", fromString := none, toString := some "Fixed",
          «to» := some "1" }] }] } }

/-- An issue with no `changelog` attribute. -/
def issueNoChangelog : Issue :=
  { key := "K-5", created := "2020-01-01T00:00:00.000+0000", statusName := "Open",
    fieldsDict := [], changelog := none }

/-- An issue whose changelog has an empty history list. -/
def issueEmptyChangelog : Issue :=
  { key := "K-6", created := "2020-01-01T00:00:00.000+0000", statusName := "Open",
    fieldsDict := [], changelog := some { histories := [] } }

/-- An issue with one story-points delta and one status delta, exercising
the from-value rule for both creation snapshots. -/
def issueWithDeltas : Issue :=
  { key := "K-4", created := "2020-01-01T00:00:00.000+0000", statusName := "Done",
    fieldsDict := [("customfield_1", some "8")],
    changelog := some { histories := [
      { created := "2020-01-02T00:00:00.000+0000", items := [
        { field := "Story Points", fromString := some "3", toString := some "5",
          «to» := none },
        { field := "status", fromString := some "Open", toString := some "Done",
          «to» := some "5" }] }] } }

/-- An issue whose changelog contains no story-points delta, for the
silent-absorption scenario of the size replay. -/
def issueNoSizeDelta : Issue :=
  { key := "K-7", created := "2020-01-01T00:00:00.000+0000", statusName := "Open",
    fieldsDict := [],
    changelog := some { histories := [
      { created := "2020-01-02T00:00:00.000+0000", items := [
        { field := "priority", fromString := some "Low", toString := some "High",
          «to» := none }] }] } }

/-- A search call whose first page returns 500 issues and whose second
page raises, the scenario of the bulk-query-executor claim. -/
def searchPage2Fails : Nat → Except String (List String) := fun fromRow =>
  if fromRow == 0 then Except.ok (List.replicate 500 "ISSUE")
  else Except.error "JIRAError"

/-- A two-entry field catalog for the field-resolution scenarios. -/
def catalogTwo : List JField :=
  [{ name := "Story Points", id := "customfield_1" },
   { name := "Epic Link", id := "customfield_2" }]

/-- Claim C5: for every issue, both replay operations yield an empty
sequence when the issue has no changelog attribute at all, and yield
exactly the creation snapshot (change marker null) when the issue has a
changelog whose history list is empty. -/
theorem empty_changelog_replay (issue : Issue) (fields : List (String × String)) (inc : Bool) :
    (issue.changelog = none →
      iter_changes issue inc = [] ∧ iter_size_changes fields issue = [])
    ∧ (issue.changelog = some { histories := [] } →
      iter_changes issue inc =
        [{ change := none, key := issue.key, date := issue.created,
           status := some issue.statusName, resolution := none, is_resolved := false }]
      ∧ iter_size_changes fields issue =
        [{ change := none, key := issue.key, date := issue.created,
           size := currentSizeOf fields issue }]) := by
  constructor
  · intro h
    constructor
    · simp [iter_changes, h]
    · simp [iter_size_changes, h]
  · intro h
    constructor
    · simp [iter_changes, h, statusChanges, processHistories]
    · simp [iter_size_changes, h, sizeChanges]

/-- Witness for C5 at two concrete issues: one lacking the changelog
attribute, one with an empty history list. -/
theorem empty_changelog_replay_witness :
    (iter_changes issueNoChangelog true = []
      ∧ iter_size_changes [] issueNoChangelog = [])
    ∧ (iter_changes issueEmptyChangelog true =
        [{ change := none, key := "K-6", date := "2020-01-01T00:00:00.000+0000",
           status := some "Open", resolution := none, is_resolved := false }]
      ∧ iter_size_changes [] issueEmptyChangelog =
        [{ change := none, key := "K-6", date := "2020-01-01T00:00:00.000+0000",
           size := none }]) :=
  ⟨(empty_changelog_replay issueNoChangelog [] true).1 rfl,
   (empty_changelog_replay issueEmptyChangelog [] true).2 rfl⟩

/-- Claim C4: for every issue with a changelog, the creation snapshot's
tracked value is the from-value of the first delta of the tracked field
when one exists, and the issue's current value otherwise — the current
status name for the status replay, the current story-points value for the
size replay. -/
theorem creation_snapshot_from_value (issue : Issue) (cl : Changelog) (inc : Bool)
    (fields : List (String × String)) (h : issue.changelog = some cl) :
    (iter_changes issue inc).head? = some
      { change := none, key := issue.key, date := issue.created,
        status := match statusChanges cl.histories with
          | [] => some issue.statusName
          | c :: _ => c.fromString,
        resolution := none, is_resolved := false }
    ∧ (iter_size_changes fields issue).head? = some
      { change := none, key := issue.key, date := issue.created,
        size := match sizeChanges cl.histories with
          | [] => currentSizeOf fields issue
          | c :: _ => c.fromString } := by
  constructor
  · simp only [iter_changes, h, List.head?_cons]
  · simp only [iter_size_changes, h, List.head?_cons]

/-- Witness for C4 at a concrete issue holding one status delta and one
story-points delta, whose creation snapshots carry the deltas'
from-values. -/
theorem creation_snapshot_from_value_witness :
    (iter_changes issueWithDeltas true).head? = some
      { change := none, key := "K-4", date := "2020-01-01T00:00:00.000+0000",
        status := some "Open", resolution := none, is_resolved := false }
    ∧ (iter_size_changes [("StoryPoints", "customfield_1")] issueWithDeltas).head? = some
      { change := none, key := "K-4", date := "2020-01-01T00:00:00.000+0000",
        size := some "3" } :=
  creation_snapshot_from_value issueWithDeltas
    { histories := [
      { created := "2020-01-02T00:00:00.000+0000", items := [
        { field := "Story Points", fromString := some "3", toString := some "5",
          «to» := none },
        { field := "status", fromString := some "Open", toString := some "Done",
          «to» := some "5" }] }] }
    true [("StoryPoints", "customfield_1")] rfl

/-- Claim C10: in size replay, when the changelog has no size delta, a
failed read of the current story-points value (a missing `StoryPoints`
entry in the resolved mapping, or a field id absent from the issue's raw
field dictionary) is absorbed and the creation snapshot is emitted with a
null size. -/
theorem size_replay_absorbs_missing_field (fields : List (String × String)) (issue : Issue)
    (cl : Changelog) (hcl : issue.changelog = some cl)
    (hnosz : sizeChanges cl.histories = [])
    (hfail : lookupKV fields "StoryPoints" = none
      ∨ ∃ fid, lookupKV fields "StoryPoints" = some fid
          ∧ lookupKV issue.fieldsDict fid = none) :
    iter_size_changes fields issue =
      [{ change := none, key := issue.key, date := issue.created, size := none }] := by
  have hcs : currentSizeOf fields issue = none := by
    rcases hfail with h1 | ⟨fid, h1, h2⟩
    · simp [currentSizeOf, h1]
    · simp [currentSizeOf, h1, h2]
  have hall : ∀ hh ∈ cl.histories,
      hh.items.filter (fun i => i.field == "Story Points") = [] := by
    intro hh hmem
    rw [List.filter_eq_nil_iff]
    intro a ha
    have hain : a ∈ (cl.histories.map (·.items)).flatten :=
      List.mem_flatten.mpr ⟨hh.items, List.mem_map_of_mem _ hmem, ha⟩
    have := List.filter_eq_nil_iff.mp hnosz a hain
    exact this
  have htail : (cl.histories.map (sizeSnapshotsOfHistory issue.key)).flatten = [] := by
    rw [List.flatten_eq_nil_iff]
    intro l hl
    obtain ⟨hh, hmem, rfl⟩ := List.mem_map.mp hl
    simp [sizeSnapshotsOfHistory, hall hh hmem]
  simp [iter_size_changes, hcl, hnosz, hcs, htail]

/-- Witness for C10 at a concrete issue with a priority-only changelog and
an empty resolved field mapping. -/
theorem size_replay_absorbs_missing_field_witness :
    iter_size_changes [] issueNoSizeDelta =
      [{ change := none, key := "K-7", date := "2020-01-01T00:00:00.000+0000",
         size := none }] :=
  size_replay_absorbs_missing_field [] issueNoSizeDelta
    { histories := [
      { created := "2020-01-02T00:00:00.000+0000", items := [
        { field := "priority", fromString := some "Low", toString := some "High",
          «to» := none }] }] }
    rfl rfl (Or.inl rfl)

/-- Counterexample to claim C3 as stated: with the record's deltas in
status-before-resolution order and resolution-change emission at its
default, the replay of the one-record Open/In Progress/Fixed issue does
not yield the two claimed snapshots (a third, resolution snapshot is
emitted, and the status snapshot carries a null resolution). -/
theorem status_resolution_same_record_cex :
    ¬ (iter_changes issueStatusFirst true =
      [{ change := none, key := "K-3", date := "2020-01-01T00:00:00.000+0000",
         status := some "Open", resolution := none, is_resolved := false },
       { change := some "status", key := "K-3", date := "2020-01-05T00:00:00.000+0000",
         status := some "In Progress", resolution := some "Fixed", is_resolved := true }]) := by
  decide

/-- Claim C3 (amended): for an issue whose changelog is one history record
at `t1` with a resolution delta null→Fixed ordered before a status delta
Open→In Progress, and with resolution-change emission disabled, the replay
yields exactly the creation snapshot and a status snapshot carrying
status=In Progress, resolution=Fixed, resolved=true; the resolution value
is visible on the status snapshot only under that delta order, because
only the resolved flag — not the resolution label — is computed before the
record's deltas are walked, and the default emission flag additionally
yields a resolution snapshot. -/
theorem resolution_first_two_snapshots (key created t1 statusName rid sid : String)
    (fd : List (String × Option String)) :
    iter_changes
      { key := key, created := created, statusName := statusName, fieldsDict := fd,
        changelog := some { histories := [
          { created := t1, items := [
            { field := "resolution", fromString := none, toString := some "Fixed",
              «to» := some rid },
            { field := "status", fromString := some "Open", toString := some "In Progress",
              «to» := some sid }] }] } }
      false
    = [{ change := none, key := key, date := created, status := some "Open",
         resolution := none, is_resolved := false },
       { change := some "status", key := key, date := t1, status := some "In Progress",
         resolution := some "Fixed", is_resolved := true }] := by
  rfl

set_option maxRecDepth 8192 in
/-- Counterexample to claim C1 as stated: with a 500-issue first page and a
failing second page, `find_issues` does not return the 500 accumulated
issues. -/
theorem find_issues_partial_cex :
    ¬ (find_issues searchPage2Fails 500 10 = List.replicate 500 "ISSUE") := by
  intro hEq
  have h0 : find_issues searchPage2Fails 500 10 = [] := by rfl
  rw [h0] at hEq
  have hl := congrArg List.length hEq
  simp at hl

/-- Helper: a pagination run that raises within its fuel makes the loop
return the empty list, whatever was accumulated. -/
theorem findIssuesLoop_error_nil {α : Type} (search : Nat → Except String (List α))
    (mr : Nat) :
    ∀ (fuel fromRow : Nat) (acc : List α),
      runHitsError search mr fromRow fuel = true →
      findIssuesLoop search mr fromRow acc fuel = [] := by
  intro fuel
  induction fuel with
  | zero => intro fromRow acc h; simp [runHitsError] at h
  | succ n ih =>
    intro fromRow acc h
    rw [runHitsError] at h
    rw [findIssuesLoop]
    cases hs : search fromRow with
    | error e => simp
    | ok page =>
      rw [hs] at h
      simp only [Bool.and_eq_true, bne_iff_ne, ne_eq] at h
      obtain ⟨h1, h2⟩ := h
      have hb : (page.length == 0) = false := by
        simp only [beq_eq_false_iff_ne, ne_eq]
        exact h1
      simp only [hb, Bool.false_eq_true, if_false]
      exact ih _ _ h2

/-- Claim C1 (amended): on a transport/query error during pagination —
including after earlier pages succeeded — `find_issues` aborts the loop
without raising but returns the empty list, discarding the issues
accumulated from the successful pages. -/
theorem find_issues_error_returns_empty {α : Type} (search : Nat → Except String (List α))
    (mr fuel : Nat) (h : runHitsError search mr 0 fuel = true) :
    find_issues search mr fuel = [] :=
  findIssuesLoop_error_nil search mr fuel 0 [] h

set_option maxRecDepth 8192 in
/-- Witness for C1 (amended): the 500-then-error run raises within its
fuel and returns the empty list. -/
theorem find_issues_error_returns_empty_witness :
    runHitsError searchPage2Fails 500 0 10 = true
    ∧ find_issues searchPage2Fails 500 10 = [] :=
  ⟨rfl, find_issues_error_returns_empty searchPage2Fails 500 10 rfl⟩

/-- Helper: a key that `lookupKV` misses is matched by no entry of the
dictionary. -/
theorem lookupKV_none_any {β : Type} (d : List (String × β)) (k : String)
    (h : lookupKV d k = none) : d.any (fun p => p.1 == k) = false := by
  rw [List.any_eq_false]
  intro p hp
  have := (List.lookup_eq_none_iff.mp h) p hp
  simp only [bne_iff_ne, ne_eq] at this
  simp only [beq_iff_eq]
  intro hc
  exact this hc.symm

/-- Helper: inserting a fresh key appends the pair to the dictionary. -/
theorem dictInsert_append (d : List (String × String)) (k v : String)
    (h : lookupKV d k = none) : dictInsert d k v = d ++ [(k, v)] := by
  rw [dictInsert, lookupKV_none_any d k h]
  simp

/-- Helper: resolving a settings list whose prefix is fully matchable up to
an unmatchable label stops at that label, returning the partially mutated
dictionary and the error naming the label. -/
theorem resolve_fields_append_partial (catalog : List JField) :
    ∀ (pre : List (String × String)) (name label : String)
      (rest fields0 : List (String × String)),
      (∀ p ∈ pre, (resolveOne catalog p.2).isSome = true) →
      resolveOne catalog label = none →
      resolve_fields catalog (pre ++ (name, label) :: rest) fields0
        = (resolvedUpTo catalog pre fields0, some (fieldError label)) := by
  intro pre
  induction pre with
  | nil =>
    intro name label rest fields0 _ hl
    simp [resolve_fields, hl, resolvedUpTo]
  | cons p ps ih =>
    intro name label rest fields0 hpre hl
    have hp : (resolveOne catalog p.2).isSome = true := hpre p (List.mem_cons_self p ps)
    obtain ⟨fid, hfid⟩ := Option.isSome_iff_exists.mp hp
    have hps : ∀ q ∈ ps, (resolveOne catalog q.2).isSome = true := by
      intro q hq; exact hpre q (List.mem_cons_of_mem p hq)
    simp only [List.cons_append, resolve_fields, hfid, List.append_eq]
    rw [ih name label rest (dictInsert fields0 p.1 fid) hps hl]
    simp [resolvedUpTo, hfid]

/-- Counterexample to part of claim C7 as stated: a failing resolution run
is not all-or-nothing — with a catalog containing `Story Points` and a
configuration resolving `StoryPoints` before the unmatched label `Nope`,
the run raises the error but leaves the already-resolved entry in the
(initially empty) mapping. -/
theorem resolve_fields_all_or_nothing_cex :
    (resolve_fields catalogTwo
      [("StoryPoints", "story points"), ("Epic", "Nope")] []).2
        = some (fieldError "Nope")
    ∧ ¬ ((resolve_fields catalogTwo
      [("StoryPoints", "story points"), ("Epic", "Nope")] []).1 = []) := by
  constructor
  · decide
  · decide

/-- Claim C7 (amended): field resolution matches each configured label
against the catalog case-insensitively; if a configured label matches no
catalog entry, initialization fails with an error naming that label, but
the entries resolved before the failure remain written in the shared
mapping — the mapping is not all-or-nothing. -/
theorem resolve_fields_unmatched_label (catalog : List JField)
    (pre : List (String × String)) (name label : String)
    (rest fields0 : List (String × String))
    (hpre : ∀ p ∈ pre, (resolveOne catalog p.2).isSome = true)
    (hl : ∀ f ∈ catalog, strLower f.name ≠ strLower label) :
    resolve_fields catalog (pre ++ (name, label) :: rest) fields0
      = (resolvedUpTo catalog pre fields0, some (fieldError label)) := by
  have hnone : resolveOne catalog label = none := by
    simp only [resolveOne, Option.map_eq_none']
    rw [List.find?_eq_none]
    intro f hf
    simpa using hl f hf
  exact resolve_fields_append_partial catalog pre name label rest fields0 hpre hnone

/-- Witness for C7 (amended) at the concrete two-entry catalog. -/
theorem resolve_fields_unmatched_label_witness :
    resolve_fields catalogTwo
        [("StoryPoints", "story points"), ("Epic", "Nope")] []
      = (resolvedUpTo catalogTwo [("StoryPoints", "story points")] [],
         some (fieldError "Nope")) :=
  resolve_fields_unmatched_label catalogTwo [("StoryPoints", "story points")]
    "Epic" "Nope" [] [] (by decide) (by decide)

/-- Claim C9: the resolved field mapping lives in a class-level dictionary
shared by all `QueryManager` instances — constructing a second manager
mutates the mapping observed through the first, and a resolution failure
raised mid-loop leaves the entries resolved before the failure present in
the shared dictionary. -/
theorem class_level_fields_shared (st0 : List (String × String)) (catalog : List JField)
    (s1 : List (String × String)) (qm1 : QueryManager) (st1 : List (String × String))
    (name2 label2 fid : String)
    (_h1 : QueryManager.init st0 catalog s1 = (st1, Except.ok qm1))
    (h2 : resolveOne catalog label2 = some fid)
    (h3 : lookupKV st1 name2 = none) :
    QueryManager.fieldsView qm1 (QueryManager.init st1 catalog [(name2, label2)]).1
        = st1 ++ [(name2, fid)]
    ∧ QueryManager.fieldsView qm1 (QueryManager.init st1 catalog [(name2, label2)]).1
        ≠ QueryManager.fieldsView qm1 st1
    ∧ ∀ name3 label3, resolveOne catalog label3 = none →
        (QueryManager.init st1 catalog [(name2, label2), (name3, label3)]).1
          = st1 ++ [(name2, fid)]
        ∧ (QueryManager.init st1 catalog [(name2, label2), (name3, label3)]).2
          = Except.error (fieldError label3) := by
  have hins : dictInsert st1 name2 fid = st1 ++ [(name2, fid)] :=
    dictInsert_append st1 name2 fid h3
  refine ⟨?_, ?_, ?_⟩
  · simp [QueryManager.init, resolve_fields, h2, hins, QueryManager.fieldsView]
  · simp only [QueryManager.init, resolve_fields, h2, hins, QueryManager.fieldsView]
    intro heq
    have := congrArg List.length heq
    simp at this
  · intro name3 label3 hn3
    constructor
    · simp [QueryManager.init, resolve_fields, h2, hn3, hins]
    · simp [QueryManager.init, resolve_fields, h2, hn3]

/-- Witness for C9: after a first manager resolves `StoryPoints`, a second
construction resolving `Epic` changes the mapping the first one observes,
and a third construction failing on `Nope` still persists the `Epic`
entry resolved before the failure. -/
theorem class_level_fields_shared_witness :
    QueryManager.fieldsView { settingsFields := [("StoryPoints", "Story Points")] }
        (QueryManager.init [("StoryPoints", "customfield_1")] catalogTwo
          [("Epic", "epic link")]).1
      = [("StoryPoints", "customfield_1")] ++ [("Epic", "customfield_2")]
    ∧ QueryManager.fieldsView { settingsFields := [("StoryPoints", "Story Points")] }
        (QueryManager.init [("StoryPoints", "customfield_1")] catalogTwo
          [("Epic", "epic link")]).1
      ≠ QueryManager.fieldsView { settingsFields := [("StoryPoints", "Story Points")] }
          [("StoryPoints", "customfield_1")]
    ∧ (QueryManager.init [("StoryPoints", "customfield_1")] catalogTwo
          [("Epic", "epic link"), ("Foo", "Nope")]).1
      = [("StoryPoints", "customfield_1")] ++ [("Epic", "customfield_2")]
    ∧ (QueryManager.init [("StoryPoints", "customfield_1")] catalogTwo
          [("Epic", "epic link"), ("Foo", "Nope")]).2
      = Except.error (fieldError "Nope") := by
  have h := class_level_fields_shared [] catalogTwo [("StoryPoints", "Story Points")]
    { settingsFields := [("StoryPoints", "Story Points")] }
    [("StoryPoints", "customfield_1")] "Epic" "epic link" "customfield_2"
    rfl rfl rfl
  exact ⟨h.1, h.2.1, (h.2.2 "Foo" "Nope" rfl).1, (h.2.2 "Foo" "Nope" rfl).2⟩

/-- Helper: `find?` returns the element of the first success, splitting
the list into an all-failing prefix, the hit, and a remainder. -/
theorem find?_first_split {α : Type} (p : α → Bool) :
    ∀ (l : List α) (v : α), l.find? p = some v →
      ∃ l₁ l₂, l = l₁ ++ v :: l₂ ∧ ∀ w ∈ l₁, ¬ p w := by
  intro l
  induction l with
  | nil => intro v h; simp [List.find?] at h
  | cons x xs ih =>
    intro v h
    by_cases hp : p x
    · rw [List.find?_cons_of_pos xs hp] at h
      obtain rfl : x = v := by injection h
      exact ⟨[], xs, rfl, by simp⟩
    · rw [List.find?_cons_of_neg xs hp] at h
      obtain ⟨l₁, l₂, heq, hall⟩ := ih v h
      refine ⟨x :: l₁, l₂, by rw [heq, List.cons_append], ?_⟩
      intro w hw
      rcases List.mem_cons.mp hw with rfl | hw'
      · exact hp
      · exact hall w hw'

/-- Claim C6: for a multi-valued field value, an empty collection
normalizes to null; a non-empty collection with no configured allow-list
normalizes to the display names joined with a pipe in original order; and
with an allow-list the result is the first allow-list entry (in allow-list
order) present in the collection, or null when no collection value appears
in the allow-list. -/
theorem resolve_multivalued (kv : List (String × List String)) (name : String)
    (xs : List Elem) :
    (xs = [] → resolve_field_value kv name (some (FieldValue.vlist xs)) = ResolvedValue.null)
    ∧ (xs ≠ [] → lookupKV kv name = none →
        resolve_field_value kv name (some (FieldValue.vlist xs))
          = ResolvedValue.str (String.intercalate "|" (xs.map elemDisplay)))
    ∧ (∀ allow, xs ≠ [] → lookupKV kv name = some allow →
        ((resolve_field_value kv name (some (FieldValue.vlist xs)) = ResolvedValue.null
            ↔ ∀ v ∈ allow, v ∉ xs.map elemDisplay)
         ∧ ∀ v, resolve_field_value kv name (some (FieldValue.vlist xs))
              = ResolvedValue.str v →
             v ∈ allow ∧ v ∈ xs.map elemDisplay
             ∧ ∃ l₁ l₂, allow = l₁ ++ v :: l₂ ∧ ∀ w ∈ l₁, w ∉ xs.map elemDisplay)) := by
  refine ⟨?_, ?_, ?_⟩
  · intro h
    subst h
    rfl
  · intro hne hlk
    simp [resolve_field_value, hlk, hne]
  · intro allow hne hlk
    have hred : resolve_field_value kv name (some (FieldValue.vlist xs))
        = match allow.find? (fun v => (xs.map elemDisplay).contains v) with
          | some v => ResolvedValue.str v
          | none => ResolvedValue.null := by
      simp [resolve_field_value, hlk, hne]
    constructor
    · rw [hred]
      cases hf : allow.find? (fun v => (xs.map elemDisplay).contains v) with
      | none =>
        simp only [iff_true_intro rfl, true_iff]
        intro v hv
        have := (List.find?_eq_none.mp hf) v hv
        simpa using this
      | some v =>
        simp only []
        constructor
        · intro hcontra; exact absurd hcontra (by simp)
        · intro hall
          have hvmem := List.mem_of_find?_eq_some hf
          have hvp := List.find?_some hf
          simp only [List.elem_eq_mem, decide_eq_true_eq] at hvp
          exact absurd hvp (hall v hvmem)
    · intro v hv
      rw [hred] at hv
      cases hf : allow.find? (fun v => (xs.map elemDisplay).contains v) with
      | none => rw [hf] at hv; exact absurd hv (by simp)
      | some u =>
        rw [hf] at hv
        have main : u ∈ allow ∧ u ∈ xs.map elemDisplay
            ∧ ∃ l₁ l₂, allow = l₁ ++ u :: l₂ ∧ ∀ w ∈ l₁, w ∉ xs.map elemDisplay := by
          have hvmem := List.mem_of_find?_eq_some hf
          have hvp := List.find?_some hf
          simp only [List.elem_eq_mem, decide_eq_true_eq] at hvp
          obtain ⟨l₁, l₂, heq, hall⟩ := find?_first_split _ allow u hf
          refine ⟨hvmem, hvp, l₁, l₂, heq, ?_⟩
          intro w hw
          have := hall w hw
          simpa using this
        have huv : u = v := by injection hv
        exact huv ▸ main

/-- Witness for C6 at the spec's concrete collections: empty, `A|B` with
no allow-list, and allow-list miss giving null. -/
theorem resolve_multivalued_witness :
    resolve_field_value [] "f" (some (FieldValue.vlist [])) = ResolvedValue.null
    ∧ resolve_field_value [] "f"
        (some (FieldValue.vlist [Elem.plain "A", Elem.plain "B"]))
      = ResolvedValue.str "A|B"
    ∧ resolve_field_value [("f", ["X"])] "f"
        (some (FieldValue.vlist [Elem.plain "A", Elem.plain "B"]))
      = ResolvedValue.null :=
  ⟨(resolve_multivalued [] "f" []).1 rfl,
   by
    have := (resolve_multivalued [] "f" [Elem.plain "A", Elem.plain "B"]).2.1
      (by decide) rfl
    simpa using this,
   ((resolve_multivalued [("f", ["X"])] "f" [Elem.plain "A", Elem.plain "B"]).2.2
      ["X"] (by decide) rfl).1.mpr (by decide)⟩

/-- Helper: processing one delta never changes the running resolved flag,
and every snapshot it emits carries that flag. -/
theorem processItem_is_resolved (key date : String) (inc : Bool) (st : ReplayState)
    (item : ChangeItem) :
    (processItem key date inc st item).1.is_resolved = st.is_resolved
    ∧ ∀ s ∈ (processItem key date inc st item).2, s.is_resolved = st.is_resolved := by
  unfold processItem
  split_ifs <;> cases inc <;> simp

/-- Helper: the inner delta loop never changes the running resolved flag,
and every snapshot it emits carries that flag. -/
theorem processItems_is_resolved (key date : String) (inc : Bool) :
    ∀ (items : List ChangeItem) (st : ReplayState),
      (processItems key date inc st items).1.is_resolved = st.is_resolved
      ∧ ∀ s ∈ (processItems key date inc st items).2,
          s.is_resolved = st.is_resolved := by
  intro items
  induction items with
  | nil => intro st; exact ⟨rfl, by intro s hs; simp [processItems] at hs⟩
  | cons item rest ih =>
    intro st
    have e1 : (processItems key date inc st (item :: rest)).1
        = (processItems key date inc (processItem key date inc st item).1 rest).1 := rfl
    have e2 : (processItems key date inc st (item :: rest)).2
        = (processItem key date inc st item).2
          ++ (processItems key date inc (processItem key date inc st item).1 rest).2 := rfl
    obtain ⟨hi1, hi2⟩ := processItem_is_resolved key date inc st item
    obtain ⟨hr1, hr2⟩ := ih (processItem key date inc st item).1
    constructor
    · rw [e1, hr1, hi1]
    · intro s hs
      rw [e2] at hs
      rcases List.mem_append.mp hs with h | h
      · exact hi2 s h
      · exact (hr2 s h).trans hi1

/-- Helper: every snapshot emitted for one history record carries the
record's recomputed resolved flag, which is also the outgoing state's. -/
theorem processHistory_is_resolved (key : String) (inc : Bool) (st : ReplayState)
    (h : ChangeHistory) :
    ∀ s ∈ (processHistory key inc st h).2,
      s.is_resolved = (processHistory key inc st h).1.is_resolved := by
  intro s hs
  unfold processHistory at hs ⊢
  obtain ⟨h1, h2⟩ := processItems_is_resolved key h.created inc h.items
    { st with is_resolved :=
        match (h.items.filter (fun i => i.field == "resolution")).getLast? with
        | some r => r.«to».isSome
        | none => st.is_resolved }
  rw [h1]
  exact h2 s hs

/-- Helper: under the all-non-null-resolutions hypothesis, one history
record can only raise the running resolved flag. -/
theorem processHistory_step_mono (key : String) (inc : Bool) (st : ReplayState)
    (h : ChangeHistory)
    (hres : ∀ it ∈ h.items, it.field = "resolution" → it.«to» ≠ none)
    (hst : st.is_resolved = true) :
    (processHistory key inc st h).1.is_resolved = true := by
  unfold processHistory
  obtain ⟨h1, _⟩ := processItems_is_resolved key h.created inc h.items
    { st with is_resolved :=
        match (h.items.filter (fun i => i.field == "resolution")).getLast? with
        | some r => r.«to».isSome
        | none => st.is_resolved }
  rw [h1]
  cases hg : (h.items.filter (fun i => i.field == "resolution")).getLast? with
  | none => simpa [hg] using hst
  | some r =>
    have hrmem := List.mem_of_getLast?_eq_some hg
    rw [List.mem_filter] at hrmem
    have hfield : r.field = "resolution" := by simpa using hrmem.2
    have := hres r hrmem.1 hfield
    simp [hg, Option.isSome_iff_ne_none, this]

/-- Helper: weakening the starting point of a monotone boolean chain. -/
theorem monoFrom_of_le (c r : Bool) (l : List Bool) (hcr : (!c || r) = true)
    (h : monoFrom r l = true) : monoFrom c l = true := by
  cases l with
  | nil => rfl
  | cons b rest =>
    simp only [monoFrom, Bool.and_eq_true] at h ⊢
    exact ⟨by cases c <;> cases r <;> cases b <;> simp_all, h.2⟩

/-- Helper: a constant block followed by a monotone chain is monotone. -/
theorem monoFrom_append_const :
    ∀ (l₁ : List Bool) (c r : Bool) (l₂ : List Bool),
      (∀ x ∈ l₁, x = r) → (!c || r) = true → monoFrom r l₂ = true →
      monoFrom c (l₁ ++ l₂) = true := by
  intro l₁
  induction l₁ with
  | nil => intro c r l₂ _ hcr h₂; exact monoFrom_of_le c r l₂ hcr h₂
  | cons x xs ih =>
    intro c r l₂ hall hcr h₂
    have hx : x = r := hall x (List.mem_cons_self x xs)
    subst hx
    simp only [List.cons_append, monoFrom, Bool.and_eq_true]
    refine ⟨hcr, ?_⟩
    exact ih x x l₂ (fun y hy => hall y (List.mem_cons_of_mem x hy))
      (by cases x <;> rfl) h₂

/-- Helper: under the all-non-null-resolutions hypothesis, the resolved
flags of the snapshots emitted by the history walk form a monotone chain
from the starting state's flag. -/
theorem processHistories_monoFrom (key : String) (inc : Bool) :
    ∀ (hs : List ChangeHistory) (st : ReplayState),
      (∀ hh ∈ hs, ∀ it ∈ hh.items, it.field = "resolution" → it.«to» ≠ none) →
      monoFrom st.is_resolved
        ((processHistories key inc st hs).map (·.is_resolved)) = true := by
  intro hs
  induction hs with
  | nil => intro st _; rfl
  | cons h rest ih =>
    intro st hall
    have e : processHistories key inc st (h :: rest)
        = (processHistory key inc st h).2
          ++ processHistories key inc (processHistory key inc st h).1 rest := rfl
    rw [e, List.map_append]
    refine monoFrom_append_const _ st.is_resolved
      (processHistory key inc st h).1.is_resolved _ ?_ ?_ ?_
    · intro x hx
      obtain ⟨s, hs', rfl⟩ := List.mem_map.mp hx
      exact processHistory_is_resolved key inc st h s hs'
    · cases hr : st.is_resolved with
      | false => rfl
      | true =>
        have := processHistory_step_mono key inc st h
          (hall h (List.mem_cons_self h rest)) hr
        simp [this]
    · exact ih (processHistory key inc st h).1
        (fun hh hmem => hall hh (List.mem_cons_of_mem h hmem))

/-- Counterexample to claim C2 as stated: an issue whose second history
record clears the resolution (null `to`) makes the emitted `is_resolved`
sequence go true → false. -/
theorem resolved_monotone_cex :
    resolvedMonotone ((iter_changes issueResCleared true).map (·.is_resolved)) = false := by
  decide

/-- Claim C2 (amended): over every status/resolution replay of a changelog
in which every resolution delta carries a non-null new value, the
`is_resolved` flag of the emitted snapshot sequence is monotonically
non-decreasing; a resolution delta whose new value is null resets the flag
to false, so a true snapshot can be followed by a false one. -/
theorem iter_changes_resolved_monotone (issue : Issue) (inc : Bool) (cl : Changelog)
    (hcl : issue.changelog = some cl)
    (hres : ∀ hh ∈ cl.histories, ∀ it ∈ hh.items,
      it.field = "resolution" → it.«to» ≠ none) :
    resolvedMonotone ((iter_changes issue inc).map (·.is_resolved)) = true := by
  cases hsc : statusChanges cl.histories with
  | nil =>
    simp only [iter_changes, hcl, hsc, List.map_cons, resolvedMonotone]
    exact processHistories_monoFrom issue.key inc cl.histories
      { is_resolved := false, last_status := some issue.statusName,
        last_resolution := none } hres
  | cons c cs =>
    simp only [iter_changes, hcl, hsc, List.map_cons, resolvedMonotone]
    exact processHistories_monoFrom issue.key inc cl.histories
      { is_resolved := false, last_status := c.fromString,
        last_resolution := none } hres

/-- Witness for C2 (amended) at a concrete issue whose only resolution
delta sets a non-null value. -/
theorem iter_changes_resolved_monotone_witness :
    resolvedMonotone ((iter_changes issueResKept true).map (·.is_resolved)) = true :=
  iter_changes_resolved_monotone issueResKept true
    { histories := [
      { created := "2020-01-02T00:00:00.000+0000", items := [
        { field := "status", fromString := some "Open", toString := some "In Progress",
          «to» := some "3" }] },
      { created := "2020-01-03T00:00:00.000+0000", items := [
        { field := "resolution", fromString := none, toString := some "Fixed",
          «to» := some "1" },
        { field := "status", fromString := some "In Progress", toString := some "Done",
          «to» := some "5" }] }] }
    rfl (by decide)

/-- Helper: consuming exactly the leading all-digit block leaves the
remainder. -/
theorem takeExactDigits_append : ∀ (cs r : List Char),
    cs.all Char.isDigit = true →
    takeExactDigits cs.length (cs ++ r) = some (cs, r) := by
  intro cs
  induction cs with
  | nil => intro r _; rfl
  | cons c cs ih =>
    intro r hall
    simp only [List.all_cons, Bool.and_eq_true] at hall
    simp only [List.length_cons, List.cons_append, takeExactDigits, hall.1, if_true,
      List.append_eq]
    rw [ih r hall.2]
    rfl

/-- Helper: `takeExactDigits_append` stated against a given digit count. -/
theorem takeExactDigits_append_of_length (n : Nat) (cs r : List Char)
    (hall : cs.all Char.isDigit = true) (hn : cs.length = n) :
    takeExactDigits n (cs ++ r) = some (cs, r) :=
  hn ▸ takeExactDigits_append cs r hall

/-- Helper: the maximal digit run of an all-digit block followed by a
non-digit is exactly that block. -/
theorem takeDigitRun_append_nondigit : ∀ (cs : List Char) (c : Char) (r : List Char),
    cs.all Char.isDigit = true → c.isDigit = false →
    takeDigitRun (cs ++ c :: r) = (cs, c :: r) := by
  intro cs
  induction cs with
  | nil => intro c r _ hc; simp [takeDigitRun, hc]
  | cons x xs ih =>
    intro c r hall hc
    simp only [List.all_cons, Bool.and_eq_true] at hall
    simp only [List.cons_append, takeDigitRun, hall.1, if_true, List.append_eq]
    rw [ih c r hall.2 hc]

/-- Helper: the maximal digit run of an all-digit list is the whole list. -/
theorem takeDigitRun_all : ∀ (cs : List Char),
    cs.all Char.isDigit = true → takeDigitRun cs = (cs, []) := by
  intro cs
  induction cs with
  | nil => intro _; rfl
  | cons x xs ih =>
    intro hall
    simp only [List.all_cons, Bool.and_eq_true] at hall
    simp only [takeDigitRun, hall.1, if_true]
    rw [ih hall.2]

set_option maxHeartbeats 1000000 in
/-- Helper: the date matcher accepts every canonical
`YYYY-MM-DDTHH:MM:SS.fff±OOOO` string and captures its digit groups
literally. -/
theorem matchDateChars_canonical (y mo d h mi s frac off : List Char) (sign : Char)
    (hy : y.all Char.isDigit = true) (hyl : y.length = 4)
    (hmo : mo.all Char.isDigit = true) (hmol : mo.length = 2)
    (hd : d.all Char.isDigit = true) (hdl : d.length = 2)
    (hh : h.all Char.isDigit = true) (hhl : h.length = 2)
    (hmi : mi.all Char.isDigit = true) (hmil : mi.length = 2)
    (hs : s.all Char.isDigit = true) (hsl : s.length = 2)
    (hfrac : frac.all Char.isDigit = true) (hfl : 2 ≤ frac.length)
    (hfh : frac.length ≤ 6)
    (hoff : off.all Char.isDigit = true) (hol : 2 ≤ off.length)
    (hoh : off.length ≤ 6)
    (hsign : sign = '+' ∨ sign = '-') :
    matchDateChars
      (y ++ '-' :: (mo ++ '-' :: (d ++ 'T' :: (h ++ ':' :: (mi ++ ':' :: (s ++ '.' ::
        (frac ++ sign :: off)))))))
      = some { y := y, mo := mo, d := d, h := h, mi := mi, s := s,
               fracSep := '.', frac := frac, offSep := sign, off := off } := by
  have hsd : sign.isDigit = false := by
    rcases hsign with rfl | rfl <;> rfl
  have hopt : ∀ r : List Char, expectOpt ['-', ' '] ('-' :: r) = r := fun _ => rfl
  have honeT : ∀ r : List Char, expectOne ['T', ' '] ('T' :: r) = some ('T', r) :=
    fun _ => rfl
  have honeC : ∀ r : List Char, expectOne [':'] (':' :: r) = some (':', r) :=
    fun _ => rfl
  have honeD : ∀ r : List Char, expectOne ['.', '+'] ('.' :: r) = some ('.', r) :=
    fun _ => rfl
  have honeS : ∀ r : List Char, expectOne ['+', '-', ':'] (sign :: r) = some (sign, r) := by
    rcases hsign with rfl | rfl <;> exact fun _ => rfl
  have hfracrun : takeDigitRun (frac ++ sign :: off) = (frac, sign :: off) :=
    takeDigitRun_append_nondigit frac sign off hfrac hsd
  have hoffrun : takeDigitRun off = (off, []) := takeDigitRun_all off hoff
  have hgf : (decide (frac.length < 2) || decide (6 < frac.length)) = false := by
    simp only [Bool.or_eq_false_iff, decide_eq_false_iff_not, Nat.not_lt]
    exact ⟨hfl, hfh⟩
  have hgo : (decide (off.length < 2) || decide (6 < off.length)) = false := by
    simp only [Bool.or_eq_false_iff, decide_eq_false_iff_not, Nat.not_lt]
    exact ⟨hol, hoh⟩
  unfold matchDateChars
  rw [takeExactDigits_append_of_length 4 y _ hy hyl]
  simp only [Option.bind_eq_bind, Option.some_bind]
  rw [hopt, takeExactDigits_append_of_length 2 mo _ hmo hmol]
  simp only [Option.some_bind]
  rw [hopt, takeExactDigits_append_of_length 2 d _ hd hdl]
  simp only [Option.some_bind]
  rw [honeT]
  simp only [Option.some_bind]
  rw [takeExactDigits_append_of_length 2 h _ hh hhl]
  simp only [Option.some_bind]
  rw [honeC]
  simp only [Option.some_bind]
  rw [takeExactDigits_append_of_length 2 mi _ hmi hmil]
  simp only [Option.some_bind]
  rw [honeC]
  simp only [Option.some_bind]
  rw [takeExactDigits_append_of_length 2 s _ hs hsl]
  simp only [Option.some_bind]
  rw [honeD]
  simp only [Option.some_bind]
  rw [hfracrun]
  simp only [hgf, Bool.false_eq_true, if_false]
  rw [honeS]
  simp only [Option.some_bind]
  rw [hoffrun]
  simp only [hgo, Bool.false_eq_true, if_false]
  rfl

/-- Claim C8: every canonical textual date value
`YYYY-MM-DDTHH:MM:SS.fff±OOOO` (digit groups arbitrary, fractional part
and offset 2–6 digits) matches the source's date pattern and normalizes to
the timezone-naive date-time whose calendar fields are the literal digit
groups of the string — the offset sign and digits do not influence the
result, i.e. the timezone is discarded, not applied. -/
theorem resolve_date_string (kv : List (String × List String)) (name : String)
    (y mo d h mi s frac off : List Char) (sign : Char)
    (hy : y.all Char.isDigit = true) (hyl : y.length = 4)
    (hmo : mo.all Char.isDigit = true) (hmol : mo.length = 2)
    (hd : d.all Char.isDigit = true) (hdl : d.length = 2)
    (hh : h.all Char.isDigit = true) (hhl : h.length = 2)
    (hmi : mi.all Char.isDigit = true) (hmil : mi.length = 2)
    (hs : s.all Char.isDigit = true) (hsl : s.length = 2)
    (hfrac : frac.all Char.isDigit = true) (hfl : 2 ≤ frac.length)
    (hfh : frac.length ≤ 6)
    (hoff : off.all Char.isDigit = true) (hol : 2 ≤ off.length)
    (hoh : off.length ≤ 6)
    (hsign : sign = '+' ∨ sign = '-') :
    resolve_field_value kv name (some (FieldValue.vstr (String.mk
      (y ++ '-' :: (mo ++ '-' :: (d ++ 'T' :: (h ++ ':' :: (mi ++ ':' :: (s ++ '.' ::
        (frac ++ sign :: off))))))))))
      = ResolvedValue.dt
          { year := digitsToNat y, month := digitsToNat mo, day := digitsToNat d,
            hour := digitsToNat h, minute := digitsToNat mi, second := digitsToNat s,
            microsecond := fracToMicro frac } := by
  have hm := matchDateChars_canonical y mo d h mi s frac off sign
    hy hyl hmo hmol hd hdl hh hhl hmi hmil hs hsl hfrac hfl hfh hoff hol hoh hsign
  simp only [resolve_field_value, scalarStringValue, matchesDateRegex, dateutilParse]
  rw [hm]
  simp [dtOfParts]

/-- Witness for C8 at the spec's concrete string
`2021-03-04T10:15:30.123+0200`. -/
theorem resolve_date_string_witness :
    resolve_field_value [] "created"
        (some (FieldValue.vstr "2021-03-04T10:15:30.123+0200"))
      = ResolvedValue.dt
          { year := 2021, month := 3, day := 4, hour := 10, minute := 15,
            second := 30, microsecond := 123000 } := by
  have h1 := resolve_date_string [] "created"
    ['2', '0', '2', '1'] ['0', '3'] ['0', '4'] ['1', '0'] ['1', '5'] ['3', '0']
    ['1', '2', '3'] ['0', '2', '0', '0'] '+'
    rfl rfl rfl rfl rfl rfl rfl rfl rfl rfl rfl rfl rfl (by decide) (by decide)
    rfl (by decide) (by decide) (Or.inl rfl)
  have h2 : String.mk
      (['2', '0', '2', '1'] ++ '-' :: (['0', '3'] ++ '-' :: (['0', '4'] ++ 'T' ::
        (['1', '0'] ++ ':' :: (['1', '5'] ++ ':' :: (['3', '0'] ++ '.' ::
        (['1', '2', '3'] ++ '+' :: ['0', '2', '0', '0'])))))))
      = "2021-03-04T10:15:30.123+0200" := rfl
  rw [h2] at h1
  exact h1.trans (by decide)

end JiraExtract
